import Mathlib

/-!
Shallow embedding of the LS300 tracker dashboard core (src/app.py):
the telemetry record data model, the device-color registry, the
marker/trail builder inside `update_map`, the watermark computation,
the incremental synchronization step, and `load_all_data`.
Machine floats of the source (latitude, longitude, scalar telemetry)
are carried as `Option Int`; timestamps as `Option Nat` (a null time is
pandas `NaT`).  A dataset is the typed row list of the pandas frame
`data_df`, so a non-empty dataset always carries the `time` column.
-/

namespace LS300

/-- One telemetry reading, the row shape produced by the Flux `keep`
column list in src/app.py lines 41 and 178: `_time` (renamed `time`),
`device`, `latitude`, `longitude` and the twelve optional scalar
fields.  Nullable pandas cells are `Option`. -/
structure Rec where
  time : Option Nat
  device : Option String
  latitude : Option Int
  longitude : Option Int
  temperature : Option Int
  humidity : Option Int
  speed : Option Int
  altitude : Option Int
  pressure : Option Int
  batteryVoltage : Option Int
  counter : Option Int
  heading : Option Int
  hoursUptime : Option Int
  satId : Option Int
  userButton : Option Int
  hall : Option Int
deriving DecidableEq

/-- Helper building a record whose scalar telemetry fields are all null. -/
def mkRec (t : Option Nat) (dev : Option String) (la lo : Option Int) : Rec :=
  { time := t, device := dev, latitude := la, longitude := lo,
    temperature := none, humidity := none, speed := none, altitude := none,
    pressure := none, batteryVoltage := none, counter := none, heading := none,
    hoursUptime := none, satId := none, userButton := none, hall := none }

/-- The fixed ten-entry palette of src/app.py line 63. -/
def color_palette : List String :=
  ["red", "blue", "green", "purple", "orange", "pink", "magenta", "cyan",
   "lime", "yellow"]

/-- The `device_colors` dict of src/app.py line 62: an insertion-ordered
map from device key (the null key models a NaN device cell) to color.
Keys are never overwritten, so insertion order is assignment order and
the list length is the dict size `len(device_colors)`. -/
abbrev Registry : Type := List (Option String × String)

/-- Dict lookup `device_colors.get(k)`. -/
def Registry.find (reg : Registry) (k : Option String) : Option String :=
  List.lookup k reg

/-- Conditional insertion `if device not in device_colors: device_colors[device] =
color_palette[len(device_colors) % len(color_palette)]`
(src/app.py lines 190-191 and 197-199). -/
def insertIfMissing (reg : Registry) (k : Option String) : Registry :=
  if (reg.find k).isSome then reg
  else reg ++ [(k, color_palette.getD (List.length reg % color_palette.length) "")]

/-- Folding `insertIfMissing` over a key sequence: the registry growth
caused by one pass of either color-assignment loop. -/
def assignNew (ks : List (Option String)) (reg : Registry) : Registry :=
  ks.foldl insertIfMissing reg

/-- One step of the `dropna().unique()` scan: a null device cell is
dropped, a fresh identifier is appended, a seen one is skipped. -/
def foStep (acc : List String) (r : Rec) : List String :=
  match r.device with
  | none => acc
  | some k => if k ∈ acc then acc else acc ++ [k]

/-- The `dropna().unique()` scan of src/app.py line 189, started from an
already-accumulated identifier list. -/
def firstOccsFrom (acc : List String) : List Rec → List String
  | [] => acc
  | r :: rest => firstOccsFrom (foStep acc r) rest

/-- The scan `data_df["device"].dropna().unique()` (src/app.py line 189): the
non-null device identifiers in order of first appearance, deduplicated. -/
def firstOccs (d : List Rec) : List String :=
  firstOccsFrom [] d

/-- The first color-assignment loop of src/app.py lines 189-191. -/
def uniqueAssign (d : List Rec) (reg : Registry) : Registry :=
  assignNew (List.map Option.some (firstOccs d)) reg

/-- String shown for a nullable cell in an f-string: pandas NaN prints
as a placeholder token, a value prints with `toString`. -/
def numStr (x : Option Int) : String :=
  match x with
  | some v => toString v
  | none => "N/A"

/-- Device cell rendered in the popup header: NaN prints `nan`. -/
def devStr (x : Option String) : String :=
  match x with
  | some k => k
  | none => "nan"

/-- Timestamp cell rendered via strftime as text.  Marker rows reaching
`format_popup` carry a non-null `_time` row key, so the null branch is
unreachable in practice. -/
def timeStr (x : Option Nat) : String :=
  match x with
  | some t => toString t
  | none => "NaT"

/-- Popup builder `format_popup` (src/app.py lines 132-153): the text lines of the
tooltip, in source order.  Only device, time, latitude, longitude,
temperature, humidity, speed, pressure, batteryVoltage and hoursUptime
appear in the source; the `html` wrappers are abstracted away. -/
def format_popup (r : Rec) : List String :=
  [ "Device: " ++ devStr r.device,
    "Time: " ++ timeStr r.time,
    "Lat: " ++ numStr r.latitude ++ "°",
    "Lon: " ++ numStr r.longitude ++ "°",
    "Temp: " ++ numStr r.temperature ++ "°C",
    "Humidity: " ++ numStr r.humidity ++ "%",
    "Speed: " ++ numStr r.speed ++ " m/s",
    "Pressure: " ++ numStr r.pressure ++ " hPa",
    "Battery: " ++ numStr r.batteryVoltage ++ " V",
    "Uptime: " ++ numStr r.hoursUptime ++ " h" ]

/-- Validity test `pd.notna(row["latitude"]) and pd.notna(row["longitude"])`
(src/app.py line 201). -/
def validRec (r : Rec) : Bool :=
  r.latitude.isSome && r.longitude.isSome

/-- A `dl.CircleMarker` of src/app.py lines 203-210: position, fixed
radius 8, registry color, fill flag, fill opacity 0.2 and the tooltip
payload. -/
structure Marker where
  center : Int × Int
  radius : Nat
  color : String
  fill : Bool
  fillOpacity : ℚ
  popup : List String
deriving DecidableEq

/-- The marker built for a (valid) row with the color string `c`. -/
def markerOf (c : String) (r : Rec) : Marker :=
  { center := (r.latitude.getD 0, r.longitude.getD 0), radius := 8,
    color := c, fill := true, fillOpacity := 2/10, popup := format_popup r }

/-- The marker-building loop of src/app.py lines 194-211: each row first
ensures its device key (null included) has a color, then a marker is
emitted when both coordinates are non-null, colored by the dict entry. -/
def markersFold : List Rec → Registry → List Marker × Registry
  | [], reg => ([], reg)
  | r :: rest, reg =>
    let reg1 := insertIfMissing reg r.device
    let tail := markersFold rest reg1
    if validRec r then (markerOf ((reg1.find r.device).getD "") r :: tail.1, tail.2)
    else tail

/-- Time comparison used by `sort_values("time")`: null
times (NaT) sort last, matching pandas `na_position` default. -/
def timeLE (a b : Option Nat) : Bool :=
  match b with
  | none => true
  | some tb =>
    match a with
    | none => false
    | some ta => ta ≤ tb

/-- Row ordering by ascending time, nulls last. -/
def recLE (a b : Rec) : Prop := timeLE a.time b.time = true

instance : DecidableRel recLE := fun a b =>
  inferInstanceAs (Decidable (timeLE a.time b.time = true))

instance : IsTotal Rec recLE := by
  constructor
  intro a b
  unfold recLE timeLE
  rcases a.time with _ | s <;> rcases b.time with _ | t <;> simp
  exact Nat.le_total s t

instance : IsTrans Rec recLE := by
  constructor
  intro a b c hab hbc
  unfold recLE timeLE at *
  revert hab hbc
  rcases a.time with _ | ta <;> rcases b.time with _ | tb <;>
    rcases c.time with _ | tc <;> intro hab hbc <;> simp_all
  exact Nat.le_trans hab hbc

/-- The per-group sort `group.sort_values("time")` (src/app.py line 216). -/
def sortByTime (g : List Rec) : List Rec :=
  List.insertionSort recLE g

/-- The rows of the group for device key `k`: pandas
`data_df.groupby("device")` collects, for each non-null key, the rows
whose device equals it, keeping dataset order inside the group. -/
def recordsOf (d : List Rec) (k : String) : List Rec :=
  d.filter (fun r => r.device == some k)

/-- Lexicographic comparison of character lists by code point. -/
def charsLE : List Char → List Char → Bool
  | [], _ => true
  | _ :: _, [] => false
  | a :: as, b :: bs =>
    if a.toNat < b.toNat then true
    else if b.toNat < a.toNat then false
    else charsLE as bs

/-- Lexicographic string order, the key order of pandas groupby. -/
def strLEP (a b : String) : Prop := charsLE a.toList b.toList = true

instance : DecidableRel strLEP := fun a b =>
  inferInstanceAs (Decidable (charsLE a.toList b.toList = true))

/-- The group keys iterated by `data_df.groupby("device")` (src/app.py
line 215): the distinct non-null device identifiers, in sorted key
order (pandas groupby default), NaN key dropped. -/
def sortedDevices (d : List Rec) : List String :=
  List.insertionSort strLEP (d.filterMap (fun r => r.device)).dedup

/-- A `dl.Polyline` of src/app.py lines 222-228.  `positions` is
`list(zip(group["latitude"], group["longitude"]))`: the raw nullable
coordinate pairs, no validity filter. -/
structure Polyline where
  positions : List (Option Int × Option Int)
  color : String
  weight : Nat
  dashArray : String
  opacity : ℚ
deriving DecidableEq

/-- The polyline body built for device `k` (src/app.py lines 216-228):
coordinates of the time-sorted group, nulls included, color from
`device_colors.get(device, "black")`, weight 4, dash "5, 5",
opacity 0.6. -/
def trailOf (d : List Rec) (reg : Registry) (k : String) : Polyline :=
  { positions := (sortByTime (recordsOf d k)).map (fun r => (r.latitude, r.longitude)),
    color := (reg.find (some k)).getD "black",
    weight := 4, dashArray := "5, 5", opacity := 6/10 }

/-- The trail-building loop of src/app.py lines 214-229: per device
group (sorted keys, null key dropped), sort by time, zip the nullable
coordinate columns, and emit one polyline when the coordinate list —
all rows of the group, not only valid points — holds at least two
entries. -/
def mkTrails (d : List Rec) (reg : Registry) : List Polyline :=
  (sortedDevices d).filterMap (fun k =>
    if 2 ≤ ((sortByTime (recordsOf d k)).map (fun r => (r.latitude, r.longitude))).length
    then some (trailOf d reg k)
    else none)

/-- Result of the rendering part of `update_map` (src/app.py lines
186-230): markers, trails and the mutated `device_colors` dict. -/
structure BuildOut where
  markers : List Marker
  trails : List Polyline
  registry : Registry
deriving DecidableEq

/-- The rendering part of `update_map` (src/app.py lines 186-230):
first the dropna-unique color loop, then the marker loop (which may
insert further keys, notably the null device key), then the trail
loop reading the resulting dict. -/
def build (d : List Rec) (reg : Registry) : BuildOut :=
  let reg1 := uniqueAssign d reg
  let mf := markersFold d reg1
  { markers := mf.1, trails := mkTrails d mf.2, registry := mf.2 }

/-- One step of the pandas `max()` fold: a null cell is skipped, a
value joins the running maximum. -/
def wmStep (acc t : Option Nat) : Option Nat :=
  match acc, t with
  | none, t2 => t2
  | some m, none => some m
  | some m, some t2 => some (max m t2)

/-- The pandas column max over a list of nullable values. -/
def wmList (ts : List (Option Nat)) : Option Nat :=
  ts.foldl wmStep none

/-- The watermark `data_df["time"].max()` (src/app.py line 169): pandas max with
`skipna`, folding over the rows, `none` (NaT) for an empty or all-null
column. -/
def currentWatermark (d : List Rec) : Option Nat :=
  d.foldl (fun acc r => wmStep acc r.time) none

/-- Written from the spec wording of §3/§8: the maximum `time` among
records with non-null time, undefined when there is none.  Compared
against `currentWatermark`, which is translated from the source. -/
def watermarkSpec (d : List Rec) : Option Nat :=
  match d.filterMap (fun r => r.time) with
  | [] => none
  | t :: ts => some (ts.foldl max t)

/-- An adapter response frame, as `query_data_frame` returns it:
whether the `_time` column is present, and the typed rows. -/
structure RawFrame where
  hasTime : Bool
  rows : List Rec

/-- The fetch-merge part of `update_map` (src/app.py lines 164-184).
An `Except.error` input is the adapter call raising (connectivity or
query error); the call is not wrapped in try/except, so it propagates.
A non-empty frame without `_time` hits `new_df["time"]` after the
no-op rename and raises `KeyError` (modelled `Except.error ()`).
An empty frame skips the merge, leaving the dataset unchanged.
The typed dataset always carries the `time` field, so the line-165
guard reduces to the emptiness test, and `max().isoformat()` on a
non-empty frame does not raise, so the line-168 try/except never
fires. -/
def sync (d : List Rec) (resp : Except Unit RawFrame) : Except Unit (List Rec) :=
  if d.isEmpty then Except.ok d
  else
    match resp with
    | Except.error e => Except.error e
    | Except.ok f =>
      if f.rows.isEmpty then Except.ok d
      else if f.hasTime then Except.ok (d ++ f.rows)
      else Except.error ()

/-- The dataset state after a sync attempt: the merged rows on success,
the untouched `data_df` when the step raised before its only mutation
(the `pd.concat` on line 184). -/
def syncResult (d : List Rec) (resp : Except Unit RawFrame) : List Rec :=
  match sync d resp with
  | Except.ok d2 => d2
  | Except.error _ => d

/-- Initial load `load_all_data` (src/app.py lines 35-56).  The query call is not
guarded, so an adapter failure propagates; otherwise an empty frame or
a frame without `_time` yields the empty dataset (line 50-52 guard),
else the typed rows. -/
def load_all_data (resp : Except Unit RawFrame) : Except Unit (List Rec) :=
  match resp with
  | Except.error e => Except.error e
  | Except.ok f =>
    if f.rows.isEmpty || !f.hasTime then Except.ok []
    else Except.ok f.rows

/-- Order on optional watermarks: an undefined watermark is below
everything, defined ones compare as naturals. -/
def optLE : Option Nat → Option Nat → Prop
  | none, _ => True
  | some _, none => False
  | some a, some b => a ≤ b

/-- Whether `pat` is a leading run of `cs`. -/
def charsPre : List Char → List Char → Bool
  | [], _ => true
  | _ :: _, [] => false
  | p :: ps, c :: cs => p == c && charsPre ps cs

/-- Whether `pat` occurs contiguously somewhere in the list. -/
def charsOccur (pat : List Char) : List Char → Bool
  | [] => charsPre pat []
  | c :: cs => charsPre pat (c :: cs) || charsOccur pat cs

/-- Whether the pattern `pat` occurs inside `s`. -/
def containsSub (s pat : String) : Bool :=
  charsOccur pat.toList s.toList

/-! ### Registry lemmas -/

theorem find_cons (j k : Option String) (c : String) (rest : Registry) :
    Registry.find ((j, c) :: rest) k = if k == j then some c else rest.find k := by
  unfold Registry.find
  rw [List.lookup]
  by_cases h : k == j
  · simp [h]
  · simp [h]

theorem find_append (reg l : Registry) (k : Option String) :
    Registry.find (reg ++ l) k =
      match reg.find k with
      | some c => some c
      | none => l.find k := by
  induction reg with
  | nil => rfl
  | cons e rest ih =>
    rcases e with ⟨j, c⟩
    rw [List.cons_append, find_cons, find_cons]
    by_cases h : k == j
    · simp [h]
    · simp [h, ih]

theorem find_append_of_isSome (reg l : Registry) (k : Option String)
    (h : (reg.find k).isSome) : Registry.find (reg ++ l) k = reg.find k := by
  rw [find_append]
  rcases hf : reg.find k with _ | c
  · rw [hf] at h; simp at h
  · rfl

theorem find_append_of_none (reg l : Registry) (k : Option String)
    (h : reg.find k = none) : Registry.find (reg ++ l) k = l.find k := by
  rw [find_append, h]

theorem insertIfMissing_of_isSome (reg : Registry) (k : Option String)
    (h : (reg.find k).isSome) : insertIfMissing reg k = reg := by
  unfold insertIfMissing
  rw [if_pos h]

theorem find_insertIfMissing_self (reg : Registry) (k : Option String) :
    ((insertIfMissing reg k).find k).isSome := by
  unfold insertIfMissing
  by_cases h : (reg.find k).isSome
  · rw [if_pos h]; exact h
  · rw [if_neg h]
    rw [Option.not_isSome_iff_eq_none] at h
    rw [find_append_of_none _ _ _ h, find_cons]
    simp

theorem find_insertIfMissing_mono (reg : Registry) (j k : Option String) (c : String)
    (h : reg.find j = some c) : (insertIfMissing reg k).find j = some c := by
  unfold insertIfMissing
  by_cases hp : (reg.find k).isSome
  · rw [if_pos hp]; exact h
  · rw [if_neg hp, find_append_of_isSome _ _ _ (by rw [h]; rfl)]; exact h

theorem assignNew_nil (reg : Registry) : assignNew [] reg = reg := rfl

theorem assignNew_cons (k : Option String) (ks : List (Option String)) (reg : Registry) :
    assignNew (k :: ks) reg = assignNew ks (insertIfMissing reg k) := rfl

theorem assignNew_find_mono (ks : List (Option String)) (reg : Registry)
    (j : Option String) (c : String) (h : reg.find j = some c) :
    (assignNew ks reg).find j = some c := by
  induction ks generalizing reg with
  | nil => exact h
  | cons k ks ih => exact ih _ (find_insertIfMissing_mono _ _ _ _ h)

theorem assignNew_isSome_mono (ks : List (Option String)) (reg : Registry)
    (j : Option String) (h : (reg.find j).isSome) :
    ((assignNew ks reg).find j).isSome := by
  rcases hf : reg.find j with _ | c
  · rw [hf] at h; simp at h
  · rw [assignNew_find_mono ks reg j c hf]; rfl

theorem assignNew_find_isSome_of_mem (ks : List (Option String)) (reg : Registry)
    (k : Option String) (h : k ∈ ks) : ((assignNew ks reg).find k).isSome := by
  induction ks generalizing reg with
  | nil => cases h
  | cons k2 ks ih =>
    rw [assignNew_cons]
    rcases List.mem_cons.mp h with rfl | hm
    · exact assignNew_isSome_mono _ _ _ (find_insertIfMissing_self _ _)
    · exact ih _ hm

theorem assignNew_of_forall_isSome (ks : List (Option String)) (reg : Registry)
    (h : ∀ k ∈ ks, (reg.find k).isSome) : assignNew ks reg = reg := by
  induction ks with
  | nil => rfl
  | cons k ks ih =>
    rw [assignNew_cons, insertIfMissing_of_isSome _ _ (h k (List.mem_cons_self _ _))]
    exact ih fun j hj => h j (List.mem_cons_of_mem _ hj)

theorem assignNew_append (xs ys : List (Option String)) (reg : Registry) :
    assignNew (xs ++ ys) reg = assignNew ys (assignNew xs reg) :=
  List.foldl_append _ _ _ _

theorem assignNew_idem (ks : List (Option String)) (reg : Registry) :
    assignNew ks (assignNew ks reg) = assignNew ks reg :=
  assignNew_of_forall_isSome _ _ fun k hk => assignNew_find_isSome_of_mem ks reg k hk

theorem assignNew_isPre (ks : List (Option String)) (reg : Registry) :
    reg <+: assignNew ks reg := by
  induction ks generalizing reg with
  | nil => exact List.prefix_refl _
  | cons k ks ih =>
    rw [assignNew_cons]
    refine List.IsPrefix.trans ?_ (ih _)
    unfold insertIfMissing
    by_cases h : (reg.find k).isSome
    · rw [if_pos h]
    · rw [if_neg h]; exact List.prefix_append _ _

theorem assignNew_find_fresh (ks : List (Option String)) (reg : Registry)
    (hn : ks.Nodup) (hf : ∀ k ∈ ks, reg.find k = none)
    (i : Nat) (hi : i < ks.length) :
    (assignNew ks reg).find (ks.get ⟨i, hi⟩) =
      some (color_palette.getD ((reg.length + i) % color_palette.length) "") := by
  induction ks generalizing reg i with
  | nil => cases hi
  | cons k ks ih =>
    have hkf : reg.find k = none := hf k (List.mem_cons_self _ _)
    have hins : insertIfMissing reg k =
        reg ++ [(k, color_palette.getD (reg.length % color_palette.length) "")] := by
      unfold insertIfMissing
      rw [if_neg (by rw [hkf]; simp)]
    rcases i with _ | j
    · rw [assignNew_cons]
      show (assignNew ks (insertIfMissing reg k)).find k = _
      have hkv : (insertIfMissing reg k).find k =
          some (color_palette.getD (reg.length % color_palette.length) "") := by
        rw [hins, find_append_of_none _ _ _ hkf, find_cons]
        simp
      rw [assignNew_find_mono _ _ _ _ hkv, Nat.add_zero]
    · rw [assignNew_cons]
      show (assignNew ks (insertIfMissing reg k)).find (ks.get ⟨j, _⟩) = _
      have hn2 : ks.Nodup := (List.nodup_cons.mp hn).2
      have hknot : k ∉ ks := (List.nodup_cons.mp hn).1
      have hf2 : ∀ k2 ∈ ks, (insertIfMissing reg k).find k2 = none := by
        intro k2 hk2
        have hne : (k2 == k) = false := by
          simp only [beq_eq_false_iff_ne, ne_eq]
          intro he; exact hknot (he ▸ hk2)
        rw [hins, find_append_of_none _ _ _ (hf k2 (List.mem_cons_of_mem _ hk2)),
          find_cons, hne]
        rfl
      have hlen : (insertIfMissing reg k).length = reg.length + 1 := by
        rw [hins, List.length_append]
        rfl
      have := ih (insertIfMissing reg k) hn2 hf2 j (Nat.lt_of_succ_lt_succ hi)
      rw [this, hlen]
      have harith : List.length reg + 1 + j = List.length reg + (j + 1) := by omega
      rw [harith]

/-! ### First-appearance scan lemmas -/

theorem firstOccsFrom_append (acc : List String) (d e : List Rec) :
    firstOccsFrom acc (d ++ e) = firstOccsFrom (firstOccsFrom acc d) e := by
  induction d generalizing acc with
  | nil => rfl
  | cons r rest ih => rw [List.cons_append]; exact ih (foStep acc r)

theorem foStep_pre (acc : List String) (r : Rec) : acc <+: foStep acc r := by
  cases hd : r.device with
  | none => simp only [foStep, hd]; exact List.prefix_refl _
  | some k =>
    simp only [foStep, hd]
    by_cases h : k ∈ acc
    · rw [if_pos h]
    · rw [if_neg h]; exact List.prefix_append _ _

theorem firstOccsFrom_pre (acc : List String) (d : List Rec) :
    acc <+: firstOccsFrom acc d := by
  induction d generalizing acc with
  | nil => exact List.prefix_refl _
  | cons r rest ih => exact List.IsPrefix.trans (foStep_pre acc r) (ih _)

theorem foStep_nodup (acc : List String) (r : Rec) (h : acc.Nodup) :
    (foStep acc r).Nodup := by
  cases hd : r.device with
  | none => simp only [foStep, hd]; exact h
  | some k =>
    simp only [foStep, hd]
    by_cases hm : k ∈ acc
    · rw [if_pos hm]; exact h
    · rw [if_neg hm]
      refine List.Nodup.append h (List.nodup_singleton k) ?_
      intro a ha hb
      rw [List.mem_singleton] at hb
      exact hm (hb ▸ ha)

theorem firstOccsFrom_nodup (acc : List String) (d : List Rec) (h : acc.Nodup) :
    (firstOccsFrom acc d).Nodup := by
  induction d generalizing acc with
  | nil => exact h
  | cons r rest ih => exact ih _ (foStep_nodup acc r h)

theorem firstOccs_nodup (d : List Rec) : (firstOccs d).Nodup :=
  firstOccsFrom_nodup [] d List.nodup_nil

theorem mem_firstOccsFrom_of_acc (acc : List String) (d : List Rec) (k : String)
    (h : k ∈ acc) : k ∈ firstOccsFrom acc d :=
  (firstOccsFrom_pre acc d).subset h

theorem firstOccsFrom_complete (acc : List String) (d : List Rec) (r : Rec) (k : String)
    (hr : r ∈ d) (hk : r.device = some k) : k ∈ firstOccsFrom acc d := by
  induction d generalizing acc with
  | nil => cases hr
  | cons r2 rest ih =>
    rcases List.mem_cons.mp hr with rfl | hm
    · show k ∈ firstOccsFrom (foStep acc r) rest
      refine mem_firstOccsFrom_of_acc _ _ _ ?_
      simp only [foStep, hk]
      by_cases h : k ∈ acc
      · rw [if_pos h]; exact h
      · rw [if_neg h]; exact List.mem_append_right _ (List.mem_singleton_self k)
    · exact ih _ hm

theorem firstOccsFrom_sound (acc : List String) (d : List Rec) (k : String)
    (h : k ∈ firstOccsFrom acc d) : k ∈ acc ∨ ∃ r ∈ d, r.device = some k := by
  induction d generalizing acc with
  | nil => exact Or.inl h
  | cons r rest ih =>
    rcases ih (foStep acc r) h with hs | ⟨r2, hr2, hk2⟩
    · cases hd : r.device with
      | none => simp only [foStep, hd] at hs; exact Or.inl hs
      | some k2 =>
        simp only [foStep, hd] at hs
        by_cases hm : k2 ∈ acc
        · rw [if_pos hm] at hs; exact Or.inl hs
        · rw [if_neg hm] at hs
          rcases List.mem_append.mp hs with ha | hb
          · exact Or.inl ha
          · rw [List.mem_singleton] at hb
            exact Or.inr ⟨r, List.mem_cons_self _ _, by rw [hd, hb]⟩
    · exact Or.inr ⟨r2, List.mem_cons_of_mem _ hr2, hk2⟩

theorem firstOccs_sound (d : List Rec) (k : String) (h : k ∈ firstOccs d) :
    ∃ r ∈ d, r.device = some k := by
  rcases firstOccsFrom_sound [] d k h with hs | he
  · cases hs
  · exact he

/-! ### Marker-loop lemmas -/

theorem markersFold_cons (r : Rec) (rest : List Rec) (reg : Registry) :
    markersFold (r :: rest) reg =
      if validRec r then
        (markerOf (((insertIfMissing reg r.device).find r.device).getD "") r ::
            (markersFold rest (insertIfMissing reg r.device)).1,
          (markersFold rest (insertIfMissing reg r.device)).2)
      else markersFold rest (insertIfMissing reg r.device) := rfl

theorem markersFold_cons_snd (r : Rec) (rest : List Rec) (reg : Registry) :
    (markersFold (r :: rest) reg).2 =
      (markersFold rest (insertIfMissing reg r.device)).2 := by
  rw [markersFold_cons]
  by_cases h : validRec r
  · rw [if_pos h]
  · rw [if_neg h]

theorem markersFold_reg (d : List Rec) (reg : Registry) :
    (markersFold d reg).2 = assignNew (d.map (fun r => r.device)) reg := by
  induction d generalizing reg with
  | nil => rfl
  | cons r rest ih =>
    rw [markersFold_cons_snd, List.map_cons, assignNew_cons]
    exact ih _

theorem markersFold_markers (d : List Rec) (reg : Registry) :
    (markersFold d reg).1 = (d.filter validRec).map
      (fun r => markerOf ((((markersFold d reg).2).find r.device).getD "") r) := by
  induction d generalizing reg with
  | nil => rfl
  | cons r rest ih =>
    have hsome : ((insertIfMissing reg r.device).find r.device).isSome :=
      find_insertIfMissing_self _ _
    obtain ⟨c, hc⟩ := Option.isSome_iff_exists.mp hsome
    have hF : ((markersFold rest (insertIfMissing reg r.device)).2).find r.device =
        some c := by
      rw [markersFold_reg]
      exact assignNew_find_mono _ _ _ _ hc
    rw [markersFold_cons_snd]
    by_cases h : validRec r
    · rw [markersFold_cons, if_pos h, List.filter_cons_of_pos h, List.map_cons]
      show _ :: _ = _ :: _
      rw [hc, hF, ih]
    · rw [markersFold_cons, if_neg h, List.filter_cons_of_neg h]
      exact ih _

/-! ### Trail lemmas -/

theorem filterMap_ifsome {α β : Type} (l : List α) (p : α → Prop) [DecidablePred p]
    (f : α → β) :
    (l.filterMap (fun k => if p k then some (f k) else none)) =
      (l.filter (fun k => decide (p k))).map f := by
  induction l with
  | nil => rfl
  | cons a l ih =>
    rw [List.filterMap_cons, List.filter_cons]
    by_cases h : p a
    · simp [h, ih]
    · simp [h, ih]

theorem trailLen (d : List Rec) (k : String) :
    ((sortByTime (recordsOf d k)).map (fun r => (r.latitude, r.longitude))).length =
      (recordsOf d k).length := by
  rw [List.length_map]
  exact List.length_insertionSort _ _

theorem mkTrails_eq (d : List Rec) (reg : Registry) :
    mkTrails d reg = ((sortedDevices d).filter
        (fun k => decide (2 ≤ (recordsOf d k).length))).map (trailOf d reg) := by
  unfold mkTrails
  rw [filterMap_ifsome]
  congr 1
  apply List.filter_congr
  intro k _
  rw [trailLen]

theorem sortedDevices_nodup (d : List Rec) : (sortedDevices d).Nodup :=
  ((List.perm_insertionSort _ _).nodup_iff).mpr (List.nodup_dedup _)

theorem mem_sortedDevices (d : List Rec) (k : String) :
    k ∈ sortedDevices d ↔ ∃ r ∈ d, r.device = some k := by
  unfold sortedDevices
  rw [List.mem_insertionSort, List.mem_dedup, List.mem_filterMap]

theorem sortByTime_perm (g : List Rec) : List.Perm (sortByTime g) g :=
  List.perm_insertionSort _ _

theorem sortByTime_sorted (g : List Rec) : List.Sorted recLE (sortByTime g) :=
  List.sorted_insertionSort _ _

theorem mem_recordsOf (d : List Rec) (k : String) (r : Rec) :
    r ∈ recordsOf d k ↔ r ∈ d ∧ r.device = some k := by
  unfold recordsOf
  rw [List.mem_filter]
  constructor
  · rintro ⟨h1, h2⟩
    exact ⟨h1, by simpa using h2⟩
  · rintro ⟨h1, h2⟩
    exact ⟨h1, by simpa using h2⟩

/-! ### Watermark lemmas -/

theorem wmStep_none_right (a : Option Nat) : wmStep a none = a := by
  cases a <;> rfl

theorem wmStep_assoc (a b c : Option Nat) :
    wmStep (wmStep a b) c = wmStep a (wmStep b c) := by
  cases a <;> cases b <;> cases c <;> simp [wmStep, Nat.max_assoc]

theorem foldl_wmStep (ts : List (Option Nat)) (acc : Option Nat) :
    ts.foldl wmStep acc = wmStep acc (wmList ts) := by
  induction ts generalizing acc with
  | nil => rw [wmList]; simp [wmStep_none_right]
  | cons t ts ih =>
    show List.foldl wmStep (wmStep acc t) ts = wmStep acc (wmList (t :: ts))
    have h2 : wmList (t :: ts) = wmStep t (wmList ts) := by
      show List.foldl wmStep (wmStep none t) ts = _
      rw [show wmStep none t = t from rfl, ih t]
    rw [ih (wmStep acc t), h2, wmStep_assoc]

theorem wmList_cons (t : Option Nat) (ts : List (Option Nat)) :
    wmList (t :: ts) = wmStep t (wmList ts) := by
  show List.foldl wmStep (wmStep none t) ts = _
  rw [show wmStep none t = t from rfl, foldl_wmStep ts t]

theorem wmList_append (ts us : List (Option Nat)) :
    wmList (ts ++ us) = wmStep (wmList ts) (wmList us) := by
  unfold wmList
  rw [List.foldl_append]
  exact foldl_wmStep us _

theorem currentWatermark_eq (d : List Rec) :
    currentWatermark d = wmList (d.map (fun r => r.time)) := by
  unfold currentWatermark wmList
  rw [List.foldl_map]

theorem currentWatermark_cons (r : Rec) (rest : List Rec) :
    currentWatermark (r :: rest) = wmStep r.time (currentWatermark rest) := by
  rw [currentWatermark_eq, List.map_cons, wmList_cons, ← currentWatermark_eq]

theorem maxfold (ws : List Nat) (a b : Nat) :
    max a (ws.foldl max b) = ws.foldl max (max a b) := by
  induction ws generalizing b with
  | nil => rfl
  | cons c ws ih =>
    rw [List.foldl_cons, List.foldl_cons, ih, Nat.max_assoc]

theorem watermark_spec_eq (d : List Rec) : currentWatermark d = watermarkSpec d := by
  induction d with
  | nil => rfl
  | cons r rest ih =>
    rw [currentWatermark_cons, ih]
    cases ht : r.time with
    | none =>
      have hsame : watermarkSpec (r :: rest) = watermarkSpec rest := by
        unfold watermarkSpec
        rw [List.filterMap_cons, ht]
      rw [hsame]
      cases hw : watermarkSpec rest <;> rfl
    | some v =>
      cases hrest : rest.filterMap (fun r2 => r2.time) with
      | nil =>
        have hs : watermarkSpec rest = none := by
          unfold watermarkSpec
          rw [hrest]
        have hs2 : watermarkSpec (r :: rest) = some v := by
          unfold watermarkSpec
          rw [List.filterMap_cons, ht, hrest]
          rfl
        rw [hs, hs2]
        rfl
      | cons w ws =>
        have hs : watermarkSpec rest = some (List.foldl max w ws) := by
          unfold watermarkSpec
          rw [hrest]
        have hs2 : watermarkSpec (r :: rest) = some (List.foldl max v (w :: ws)) := by
          unfold watermarkSpec
          rw [List.filterMap_cons, ht, hrest]
        rw [hs, hs2]
        show some (max v (List.foldl max w ws)) = some (List.foldl max v (w :: ws))
        rw [List.foldl_cons, maxfold]

theorem currentWatermark_none_iff (d : List Rec) :
    currentWatermark d = none ↔ ∀ r ∈ d, r.time = none := by
  rw [watermark_spec_eq]
  unfold watermarkSpec
  cases hf : d.filterMap (fun r => r.time) with
  | nil =>
    simp only [true_iff]
    exact fun r hr => List.filterMap_eq_nil_iff.mp hf r hr
  | cons t ts =>
    simp only [false_iff]
    constructor
    · intro h
      cases h
    · intro hall
      have ht : t ∈ d.filterMap (fun r => r.time) := by
        rw [hf]; exact List.mem_cons_self _ _
      obtain ⟨r, hr, hrt⟩ := List.mem_filterMap.mp ht
      rw [hall r hr] at hrt
      cases hrt

theorem optLE_refl (a : Option Nat) : optLE a a := by
  cases a
  · trivial
  · exact Nat.le_refl _

theorem optLE_wmStep (a b : Option Nat) : optLE a (wmStep a b) := by
  cases a <;> cases b
  · trivial
  · trivial
  · exact Nat.le_refl _
  · exact Nat.le_max_left _ _

theorem watermark_append (d e : List Rec) :
    optLE (currentWatermark d) (currentWatermark (d ++ e)) := by
  rw [currentWatermark_eq d, currentWatermark_eq (d ++ e), List.map_append,
    wmList_append]
  exact optLE_wmStep _ _

/-! ### Build-level lemmas -/

theorem build_registry (d : List Rec) (reg : Registry) :
    (build d reg).registry = assignNew (d.map (fun r => r.device)) (uniqueAssign d reg) := by
  show (markersFold d (uniqueAssign d reg)).2 = _
  exact markersFold_reg _ _

theorem build_markers (d : List Rec) (reg : Registry) :
    (build d reg).markers = (d.filter validRec).map
      (fun r => markerOf ((((build d reg).registry).find r.device).getD "") r) := by
  show (markersFold d (uniqueAssign d reg)).1 = _
  exact markersFold_markers _ _

theorem build_trails_eq (d : List Rec) (reg : Registry) :
    (build d reg).trails = mkTrails d ((build d reg).registry) := rfl

theorem build_find_isSome_of_key (d : List Rec) (reg : Registry) (j : Option String)
    (h : j ∈ d.map (fun r => r.device)) : (((build d reg).registry).find j).isSome := by
  rw [build_registry]
  exact assignNew_find_isSome_of_mem _ _ _ h

theorem uniqueAssign_build_fix (d : List Rec) (reg : Registry) :
    uniqueAssign d ((build d reg).registry) = (build d reg).registry := by
  apply assignNew_of_forall_isSome
  intro j hj
  obtain ⟨k, hk, rfl⟩ := List.mem_map.mp hj
  obtain ⟨r, hr, hrk⟩ := firstOccs_sound d k hk
  apply build_find_isSome_of_key
  rw [← hrk]
  exact List.mem_map_of_mem _ hr

theorem build_registry_fix (d : List Rec) (reg : Registry) :
    (build d ((build d reg).registry)).registry = (build d reg).registry := by
  rw [build_registry, uniqueAssign_build_fix]
  apply assignNew_of_forall_isSome
  intro j hj
  exact build_find_isSome_of_key d reg j hj

theorem build_markers_fix (d : List Rec) (reg : Registry) :
    (build d ((build d reg).registry)).markers = (build d reg).markers := by
  rw [build_markers d ((build d reg).registry), build_markers d reg, build_registry_fix d reg]

theorem build_trails_fix (d : List Rec) (reg : Registry) :
    (build d ((build d reg).registry)).trails = (build d reg).trails := by
  rw [build_trails_eq, build_trails_eq, build_registry_fix]

theorem build_registry_pre (d : List Rec) (reg : Registry) :
    reg <+: (build d reg).registry := by
  rw [build_registry]
  exact List.IsPrefix.trans (assignNew_isPre _ reg) (assignNew_isPre _ _)

theorem build_find_mono (d : List Rec) (reg : Registry) (k : Option String) (c : String)
    (h : reg.find k = some c) : ((build d reg).registry).find k = some c := by
  rw [build_registry]
  exact assignNew_find_mono _ _ _ _ (assignNew_find_mono _ _ _ _ h)

theorem uniqueAssign_keys_present (d : List Rec) (reg : Registry) (k : String)
    (h : k ∈ firstOccs d) : ((uniqueAssign d reg).find (some k)).isSome :=
  assignNew_find_isSome_of_mem _ _ _ (List.mem_map_of_mem _ h)

theorem nonull_marker_noop (d : List Rec) (X : Registry)
    (hall : ∀ r ∈ d, r.device.isSome) :
    assignNew (d.map (fun r => r.device)) (uniqueAssign d X) = uniqueAssign d X := by
  apply assignNew_of_forall_isSome
  intro j hj
  obtain ⟨r, hr, hrj⟩ := List.mem_map.mp hj
  obtain ⟨k, hk⟩ := Option.isSome_iff_exists.mp (hall r hr)
  rw [← hrj, hk]
  exact uniqueAssign_keys_present d X k (firstOccsFrom_complete [] d r k hr hk)

theorem build_registry_nonull (d : List Rec) (X : Registry)
    (hall : ∀ r ∈ d, r.device.isSome) :
    (build d X).registry = uniqueAssign d X := by
  rw [build_registry]
  exact nonull_marker_noop d X hall

theorem firstOccs_append (d s : List Rec) :
    ∃ t, firstOccs (d ++ s) = firstOccs d ++ t := by
  have h1 : firstOccs (d ++ s) = firstOccsFrom (firstOccs d) s :=
    firstOccsFrom_append [] d s
  obtain ⟨t, ht⟩ := firstOccsFrom_pre (firstOccs d) s
  exact ⟨t, by rw [h1, ← ht]⟩

theorem uniqueAssign_comp (reg : Registry) (d1 s : List Rec) :
    uniqueAssign (d1 ++ s) (uniqueAssign d1 reg) = uniqueAssign (d1 ++ s) reg := by
  obtain ⟨t, ht⟩ := firstOccs_append d1 s
  unfold uniqueAssign
  rw [ht, List.map_append]
  simp only [assignNew_append]
  rw [assignNew_idem]

theorem build_registry_comp (reg : Registry) (d1 d2 : List Rec) (h : d1 <+: d2)
    (hall : ∀ r ∈ d2, r.device.isSome) :
    (build d2 ((build d1 reg).registry)).registry = (build d2 reg).registry := by
  have hall1 : ∀ r ∈ d1, r.device.isSome := fun r hr => hall r (h.subset hr)
  obtain ⟨s, rfl⟩ := h
  rw [build_registry_nonull _ _ hall, build_registry_nonull _ _ hall,
    build_registry_nonull _ _ hall1, uniqueAssign_comp]

theorem trailOf_mem_mkTrails (d : List Rec) (reg : Registry) (k : String)
    (hk : k ∈ sortedDevices d) (hlen : 2 ≤ (recordsOf d k).length) :
    trailOf d reg k ∈ mkTrails d reg := by
  rw [mkTrails_eq]
  exact List.mem_map_of_mem _ (List.mem_filter.mpr ⟨hk, by simpa using hlen⟩)

theorem coords_mem_trailOf (d : List Rec) (reg : Registry) (k : String) (r : Rec)
    (hr : r ∈ recordsOf d k) :
    (r.latitude, r.longitude) ∈ (trailOf d reg k).positions := by
  show _ ∈ (sortByTime (recordsOf d k)).map (fun r => (r.latitude, r.longitude))
  refine List.mem_map_of_mem _ ?_
  show r ∈ List.insertionSort recLE (recordsOf d k)
  rw [List.mem_insertionSort]
  exact hr

theorem build_empty_palette (d : List Rec) (i : Nat) (hi : i < (firstOccs d).length) :
    ((build d []).registry).find (some ((firstOccs d).get ⟨i, hi⟩)) =
      some (color_palette.getD (i % color_palette.length) "") := by
  rw [build_registry]
  have hnd : ((firstOccs d).map Option.some).Nodup :=
    (firstOccs_nodup d).map (Option.some_injective String)
  have hfresh : ∀ k ∈ (firstOccs d).map Option.some,
      Registry.find ([] : Registry) k = none := fun _ _ => rfl
  have hlen : i < ((firstOccs d).map Option.some).length := by
    rw [List.length_map]
    exact hi
  have hkey := assignNew_find_fresh ((firstOccs d).map Option.some) [] hnd hfresh i hlen
  have hget : ((firstOccs d).map Option.some).get ⟨i, hlen⟩ =
      some ((firstOccs d).get ⟨i, hi⟩) := by
    simp
  rw [hget] at hkey
  apply assignNew_find_mono
  show (assignNew ((firstOccs d).map Option.some) []).find _ = _
  rw [hkey]
  norm_num

/-! ### Sync helper lemmas -/

theorem syncResult_cases (d : List Rec) (resp : Except Unit RawFrame) :
    syncResult d resp = d ∨ ∃ rows, syncResult d resp = d ++ rows := by
  by_cases he : d.isEmpty
  · left
    simp [syncResult, sync, he]
  · cases resp with
    | error e =>
      left
      simp [syncResult, sync, he]
    | ok f =>
      by_cases hr : f.rows.isEmpty
      · left
        simp [syncResult, sync, he, hr]
      · by_cases htc : f.hasTime
        · right
          exact ⟨f.rows, by simp [syncResult, sync, he, hr, htc]⟩
        · left
          simp [syncResult, sync, he, hr, htc]

theorem mem_syncResult_of_mem (d : List Rec) (resp : Except Unit RawFrame) (r : Rec)
    (h : r ∈ d) : r ∈ syncResult d resp := by
  rcases syncResult_cases d resp with heq | ⟨rows, heq⟩
  · rw [heq]
    exact h
  · rw [heq]
    exact List.mem_append_left _ h

/-! ### Concrete data for witnesses and counterexamples -/

/-- Device A, valid coordinates, time 10. -/
def rA : Rec := mkRec (some 10) (some "A") (some 1) (some 1)

/-- Null device, valid coordinates, time 11. -/
def rN : Rec := mkRec (some 11) none (some 2) (some 2)

/-- Device B, valid coordinates, time 12. -/
def rB : Rec := mkRec (some 12) (some "B") (some 3) (some 3)

/-- Device A, null latitude (the `lat=null, lon=5` record of the spec
scenario), time 1. -/
def rS1 : Rec := mkRec (some 1) (some "A") none (some 5)

/-- Device A, valid coordinates, time 2. -/
def rS2 : Rec := mkRec (some 2) (some "A") (some 1) (some 1)

/-- Device A, null latitude, time 2. -/
def rU2 : Rec := mkRec (some 2) (some "A") none (some 6)

/-- A record carrying an altitude value that the popup never shows. -/
def rAlt : Rec := { mkRec (some 3) (some "A") (some 1) (some 1) with altitude := some 777777 }

/-- The spec §8 scenario dataset: two device X records and one device Y
record. -/
def dX : List Rec :=
  [mkRec (some 10) (some "X") (some 1) (some 1),
   mkRec (some 20) (some "X") (some 2) (some 2),
   mkRec (some 15) (some "Y") (some 9) (some 9)]

/-! ### Claim C1 -/

/-- C1 counterexample: on a dataset with the valid watermark 10, an
adapter failure makes `sync` raise (propagate the error) instead of
returning the dataset unchanged, refuting the claim that sync never
raises on adapter failure. -/
theorem sync_failure_counterexample :
    currentWatermark [rA] = some 10 ∧
    sync [rA] (Except.error ()) = Except.error () ∧
    sync [rA] (Except.error ()) ≠ Except.ok [rA] := by
  refine ⟨rfl, rfl, fun h => ?_⟩
  exact Except.noConfusion h

/-- C1 (amended): for a dataset with a valid watermark, an adapter
failure propagates out of `sync`, and a non-empty frame missing the
timestamp column raises as well; only an empty adapter response makes
`sync` return the dataset unchanged without raising. -/
theorem sync_failure_semantics (d : List Rec) (f : RawFrame) (e : Unit)
    (hw : currentWatermark d ≠ none) :
    sync d (Except.error e) = Except.error e ∧
    (f.rows ≠ [] → f.hasTime = false → sync d (Except.ok f) = Except.error ()) ∧
    (f.rows = [] → sync d (Except.ok f) = Except.ok d) := by
  have hne : d.isEmpty = false := by
    cases d with
    | nil => exact absurd rfl hw
    | cons a l => rfl
  refine ⟨by simp [sync, hne], fun hrows hht => ?_, fun hrows => ?_⟩
  · have hre : f.rows.isEmpty = false := by
      cases hf : f.rows with
      | nil => exact absurd hf hrows
      | cons a l => rfl
    simp [sync, hne, hre, hht]
  · simp [sync, hne, hrows]

/-- C1 witness: the amended theorem applied to the singleton dataset
holding `rA` and a failing adapter call. -/
theorem sync_failure_witness :
    currentWatermark [rA] ≠ none ∧ sync [rA] (Except.error ()) = Except.error () :=
  ⟨by decide, (sync_failure_semantics [rA] ⟨true, []⟩ () (by decide)).1⟩

/-! ### Claim C2 -/

/-- C2 counterexample: a device whose two records both have null
latitude has zero valid points, yet the builder still emits one
polyline for it (and that polyline passes through the null
coordinates), refuting the valid-point threshold and the
valid-points-only path. -/
theorem trails_counterexample :
    ([rS1, rU2].filter validRec).length = 0 ∧
    (mkTrails [rS1, rU2] []).length = 1 ∧
    (∃ p ∈ mkTrails [rS1, rU2] [], ((none : Option Int), some (5 : Int)) ∈ p.positions) := by
  decide

/-- C2 (amended): the trail builder groups records by device (null
device key dropped), sorts each group by time ascending, and emits
exactly one polyline per device having at least 2 records — records,
not valid points; the polyline passes through all of the nullable
nullable coordinate pairs in ascending time order; a device with fewer
than 2 records emits no trail. -/
theorem trails_shape (d : List Rec) (reg : Registry) :
    (mkTrails d reg).length =
      ((sortedDevices d).filter (fun k => decide (2 ≤ (recordsOf d k).length))).length ∧
    (sortedDevices d).Nodup ∧
    (∀ k : String, k ∈ sortedDevices d ↔ ∃ r ∈ d, r.device = some k) ∧
    (∀ p ∈ mkTrails d reg, ∃ k : String, k ∈ sortedDevices d ∧
      2 ≤ (recordsOf d k).length ∧ p = trailOf d reg k ∧
      p.positions = (sortByTime (recordsOf d k)).map (fun r => (r.latitude, r.longitude)) ∧
      List.Sorted recLE (sortByTime (recordsOf d k)) ∧
      List.Perm (sortByTime (recordsOf d k)) (recordsOf d k)) := by
  refine ⟨?_, sortedDevices_nodup d, mem_sortedDevices d, ?_⟩
  · rw [mkTrails_eq, List.length_map]
  · intro p hp
    rw [mkTrails_eq] at hp
    obtain ⟨k, hk, rfl⟩ := List.mem_map.mp hp
    have hkf := List.mem_filter.mp hk
    exact ⟨k, hkf.1, by simpa using hkf.2, rfl, rfl, sortByTime_sorted _, sortByTime_perm _⟩

/-- C2 witness: the amended theorem applied on the spec scenario
dataset, at the device X polyline. -/
theorem trails_shape_witness :
    trailOf dX [] "X" ∈ mkTrails dX [] ∧
    (∃ k : String, k ∈ sortedDevices dX ∧ 2 ≤ (recordsOf dX k).length ∧
      trailOf dX [] "X" = trailOf dX [] k ∧
      (trailOf dX [] "X").positions =
        (sortByTime (recordsOf dX k)).map (fun r => (r.latitude, r.longitude)) ∧
      List.Sorted recLE (sortByTime (recordsOf dX k)) ∧
      List.Perm (sortByTime (recordsOf dX k)) (recordsOf dX k)) :=
  ⟨trailOf_mem_mkTrails dX [] "X" (by decide) (by decide),
    (trails_shape dX []).2.2.2 (trailOf dX [] "X")
      (trailOf_mem_mkTrails dX [] "X" (by decide) (by decide))⟩

/-! ### Claim C3 -/

/-- C3 counterexample: the record with `lat=null, lon=5` is in the
dataset and yields no marker, but its nullable coordinate pair does
appear among the trail positions of its device, refuting the claim that it
contributes no trail vertex. -/
theorem invalid_record_counterexample :
    validRec rS1 = false ∧ rS1 ∈ [rS1, rS2] ∧
    (∃ p ∈ mkTrails [rS1, rS2] [], (rS1.latitude, rS1.longitude) ∈ p.positions) := by
  decide

/-- C3 (amended): a record with null latitude or longitude remains in
the dataset after sync, and markers are built exactly from the records
whose latitude and longitude are both non-null; but such a record does
contribute its nullable coordinate pair as a vertex of the device
trail whenever that trail is emitted. -/
theorem invalid_record_rendering (d : List Rec) (resp : Except Unit RawFrame)
    (reg : Registry) (rec : Rec) (hrec : rec ∈ d) :
    rec ∈ syncResult d resp ∧
    (build d reg).markers = (d.filter validRec).map
      (fun r => markerOf ((((build d reg).registry).find r.device).getD "") r) ∧
    (∀ k : String, rec.device = some k → 2 ≤ (recordsOf d k).length →
      ∃ p ∈ (build d reg).trails, (rec.latitude, rec.longitude) ∈ p.positions) := by
  refine ⟨mem_syncResult_of_mem d resp rec hrec, build_markers d reg, ?_⟩
  intro k hk hlen
  have hks : k ∈ sortedDevices d := (mem_sortedDevices d k).mpr ⟨rec, hrec, hk⟩
  refine ⟨trailOf d ((build d reg).registry) k, ?_, ?_⟩
  · rw [build_trails_eq]
    exact trailOf_mem_mkTrails _ _ _ hks hlen
  · exact coords_mem_trailOf _ _ _ _ ((mem_recordsOf d k rec).mpr ⟨hrec, hk⟩)

/-- C3 witness: the amended theorem applied to `rS1` inside the
two-record device A dataset. -/
theorem invalid_record_witness :
    rS1 ∈ syncResult [rS1, rS2] (Except.error ()) ∧
    (∃ p ∈ (build [rS1, rS2] []).trails, (rS1.latitude, rS1.longitude) ∈ p.positions) := by
  have h := invalid_record_rendering [rS1, rS2] (Except.error ()) [] rS1 (by decide)
  exact ⟨h.1, h.2.2 "A" rfl (by decide)⟩

/-! ### Claim C4 -/

/-- C4 counterexample: with a null-device record in the first cycle,
the marker pass assigns the null key the second palette slot, so the
second distinct non-null device B (index 1 in first-appearance order)
receives palette entry 2 ("green") instead of the claimed entry
1 mod P ("blue"). -/
theorem color_assignment_counterexample :
    firstOccs ([rA, rN] ++ [rB]) = ["A", "B"] ∧
    (((build ([rA, rN] ++ [rB]) ((build [rA, rN] []).registry)).registry).find
      (some "B")) = some "green" ∧
    color_palette.getD (1 % color_palette.length) "" = "blue" ∧
    ("green" : String) ≠ "blue" := by
  decide

/-- C4 (amended): a color, once assigned, never changes in any later
cycle; within a single scan from an empty registry the N-th distinct
non-null device (first-appearance order) receives palette entry
N mod P; and across refresh cycles over a growing dataset the
assignment is independent of how many times colors are recomputed,
provided the dataset holds no null-device records (a null-device
record consumes a palette slot in the marker pass, shifting later
devices). -/
theorem color_assignment :
    (∀ (d : List Rec) (reg : Registry) (k : Option String) (c : String),
      reg.find k = some c → ((build d reg).registry).find k = some c) ∧
    (∀ (d : List Rec) (i : Nat) (hi : i < (firstOccs d).length),
      ((build d []).registry).find (some ((firstOccs d).get ⟨i, hi⟩)) =
        some (color_palette.getD (i % color_palette.length) "")) ∧
    (∀ (reg : Registry) (d1 d2 : List Rec), d1 <+: d2 →
      (∀ r ∈ d2, r.device.isSome) →
      (build d2 ((build d1 reg).registry)).registry = (build d2 reg).registry) :=
  ⟨build_find_mono, build_empty_palette, build_registry_comp⟩

/-- C4 witness: the amended theorem applied to the null-free two-cycle
run `[rA]` then `[rA, rB]`. -/
theorem color_assignment_witness :
    (∀ r ∈ [rA, rB], r.device.isSome) ∧
    (build [rA, rB] ((build [rA] []).registry)).registry = (build [rA, rB] []).registry :=
  ⟨by decide, color_assignment.2.2 [] [rA] [rA, rB] ⟨[rB], rfl⟩ (by decide)⟩

/-! ### Claim C5 -/

/-- C5: the watermark of a dataset equals the maximum time among
records with non-null time, and is undefined exactly when the dataset
is empty or holds no non-null timestamp. -/
theorem watermark_correct (d : List Rec) :
    currentWatermark d = watermarkSpec d ∧
    (currentWatermark d = none ↔ ∀ r ∈ d, r.time = none) :=
  ⟨watermark_spec_eq d, currentWatermark_none_iff d⟩

/-- C5 witness: the theorem applied to the spec scenario dataset. -/
theorem watermark_correct_witness : currentWatermark dX = watermarkSpec dX :=
  (watermark_correct dX).1

/-! ### Claim C6 -/

/-- C6: for every dataset and every adapter response (failures and the
empty response included), the dataset state after the sync attempt is
at least as large and its watermark at least as high. -/
theorem sync_monotone (d : List Rec) (resp : Except Unit RawFrame) :
    d.length ≤ (syncResult d resp).length ∧
    optLE (currentWatermark d) (currentWatermark (syncResult d resp)) := by
  rcases syncResult_cases d resp with heq | ⟨rows, heq⟩
  · rw [heq]
    exact ⟨Nat.le_refl _, optLE_refl _⟩
  · rw [heq, List.length_append]
    exact ⟨Nat.le_add_right _ _, watermark_append d rows⟩

/-- C6 witness: the theorem applied to the spec scenario dataset and a
failing adapter response. -/
theorem sync_monotone_witness :
    dX.length ≤ (syncResult dX (Except.error ())).length :=
  (sync_monotone dX (Except.error ())).1

/-! ### Claim C7 -/

/-- C7: when the adapter result is empty or lacks the timestamp
column, the initial load returns the empty dataset instead of
raising. -/
theorem initial_load_fallback (f : RawFrame) (h : f.rows = [] ∨ f.hasTime = false) :
    load_all_data (Except.ok f) = Except.ok [] := by
  unfold load_all_data
  rcases h with h | h
  · simp [h]
  · simp [h]

/-- C7 witness: the theorem applied to a non-empty frame without the
timestamp column. -/
theorem initial_load_fallback_witness :
    ((⟨false, [rA]⟩ : RawFrame).rows = [] ∨ (⟨false, [rA]⟩ : RawFrame).hasTime = false) ∧
    load_all_data (Except.ok ⟨false, [rA]⟩) = Except.ok [] :=
  ⟨Or.inr rfl, initial_load_fallback ⟨false, [rA]⟩ (Or.inr rfl)⟩

/-! ### Claim C8 -/

/-- C8 counterexample: the builder does mutate the registry it was
given — building over a one-record dataset from the empty registry
returns a registry extended with device A, refuting the no-side-effects
claim. -/
theorem build_mutation_counterexample :
    (build [rA] []).registry ≠ ([] : Registry) ∧
    (build [rA] []).registry = [(some "A", "red")] := by
  decide

/-- C8 (amended): running the builder twice in sequence yields
identical markers, trails and registry; the dataset is read-only for
the builder, but the registry is extended (never overwritten: the
input registry is a prefix of the output) with colors for devices it
had not seen. -/
theorem build_idempotent (d : List Rec) (reg : Registry) :
    (build d ((build d reg).registry)).markers = (build d reg).markers ∧
    (build d ((build d reg).registry)).trails = (build d reg).trails ∧
    (build d ((build d reg).registry)).registry = (build d reg).registry ∧
    reg <+: (build d reg).registry :=
  ⟨build_markers_fix d reg, build_trails_fix d reg, build_registry_fix d reg,
    build_registry_pre d reg⟩

/-- C8 witness: the amended theorem applied to the spec scenario
dataset. -/
theorem build_idempotent_witness :
    (build dX ((build dX []).registry)).markers = (build dX []).markers :=
  (build_idempotent dX []).1

/-! ### Claim C9 -/

/-- C9 counterexample: a record with altitude 777777 present produces a
popup in which that value appears nowhere, so altitude (and likewise
counter, heading, satId, userButton, hall) is not rendered at all,
refuting the every-present-field claim. -/
theorem popup_missing_fields_counterexample :
    rAlt.altitude = some 777777 ∧
    (format_popup rAlt).all (fun s => !containsSub s "777777") = true := by
  decide

/-- C9 (amended): every popup contains the device id, the formatted
timestamp, latitude, longitude and exactly the six optional scalar
fields temperature, humidity, speed, pressure, batteryVoltage and
hoursUptime, each with its unit suffix and an `N/A` placeholder when
absent; the popup never depends on altitude, counter, heading, satId,
userButton or hall. -/
theorem popup_content (r : Rec) :
    ("Device: " ++ devStr r.device) ∈ format_popup r ∧
    ("Time: " ++ timeStr r.time) ∈ format_popup r ∧
    ("Lat: " ++ numStr r.latitude ++ "°") ∈ format_popup r ∧
    ("Lon: " ++ numStr r.longitude ++ "°") ∈ format_popup r ∧
    ("Temp: " ++ numStr r.temperature ++ "°C") ∈ format_popup r ∧
    ("Humidity: " ++ numStr r.humidity ++ "%") ∈ format_popup r ∧
    ("Speed: " ++ numStr r.speed ++ " m/s") ∈ format_popup r ∧
    ("Pressure: " ++ numStr r.pressure ++ " hPa") ∈ format_popup r ∧
    ("Battery: " ++ numStr r.batteryVoltage ++ " V") ∈ format_popup r ∧
    ("Uptime: " ++ numStr r.hoursUptime ++ " h") ∈ format_popup r ∧
    numStr none = "N/A" ∧
    (∀ r2 : Rec, r2.device = r.device → r2.time = r.time → r2.latitude = r.latitude →
      r2.longitude = r.longitude → r2.temperature = r.temperature →
      r2.humidity = r.humidity → r2.speed = r.speed → r2.pressure = r.pressure →
      r2.batteryVoltage = r.batteryVoltage → r2.hoursUptime = r.hoursUptime →
      format_popup r2 = format_popup r) := by
  refine ⟨?_, ?_, ?_, ?_, ?_, ?_, ?_, ?_, ?_, ?_, rfl, ?_⟩
  · simp [format_popup]
  · simp [format_popup]
  · simp [format_popup]
  · simp [format_popup]
  · simp [format_popup]
  · simp [format_popup]
  · simp [format_popup]
  · simp [format_popup]
  · simp [format_popup]
  · simp [format_popup]
  · intro r2 h1 h2 h3 h4 h5 h6 h7 h8 h9 h10
    unfold format_popup
    rw [h1, h2, h3, h4, h5, h6, h7, h8, h9, h10]

/-- C9 witness: the amended theorem applied to the altitude-bearing
record. -/
theorem popup_content_witness :
    ("Device: " ++ devStr rAlt.device) ∈ format_popup rAlt :=
  (popup_content rAlt).1

/-! ### Claim C10 -/

/-- C10: a null-device record with valid coordinates is rendered as a
marker and the marker pass assigns the null device key a color, but
no trail is built from null-device records: every trail belongs to a
non-null device key and null-device records belong to no device
group. -/
theorem null_device_rendering (d : List Rec) (reg : Registry) (rec : Rec)
    (hrec : rec ∈ d) (hdev : rec.device = none) :
    (validRec rec = true →
      markerOf ((((build d reg).registry).find none).getD "") rec ∈ (build d reg).markers) ∧
    (((build d reg).registry).find none).isSome ∧
    (∀ p ∈ (build d reg).trails, ∃ k : String, p = trailOf d ((build d reg).registry) k) ∧
    (∀ k : String, rec ∉ recordsOf d k) := by
  refine ⟨?_, ?_, ?_, ?_⟩
  · intro hv
    rw [build_markers]
    have hmem : rec ∈ d.filter validRec := List.mem_filter.mpr ⟨hrec, hv⟩
    have hmap := List.mem_map_of_mem
      (fun r => markerOf ((((build d reg).registry).find r.device).getD "") r) hmem
    simpa [hdev] using hmap
  · apply build_find_isSome_of_key
    rw [← hdev]
    exact List.mem_map_of_mem _ hrec
  · intro p hp
    rw [build_trails_eq, mkTrails_eq] at hp
    obtain ⟨k, _, rfl⟩ := List.mem_map.mp hp
    exact ⟨k, rfl⟩
  · intro k hmem
    have hd := ((mem_recordsOf d k rec).mp hmem).2
    rw [hdev] at hd
    cases hd

/-- C10 witness: the theorem applied to the null-device record `rN`
inside a two-record dataset. -/
theorem null_device_witness :
    rN ∈ [rA, rN] ∧ (((build [rA, rN] []).registry).find none).isSome :=
  ⟨by decide, (null_device_rendering [rA, rN] [] rN (by decide) rfl).2.1⟩

end LS300
